import Mathlib

/-!
Verification development for the streamclient repository (ps2warpgate/streamclient).

Shallow embedding of the alert lifecycle dispatch pipeline:
- `src/ess_client.py`: the `on_metagame_event` handler and `purge_stale_alerts`;
- `src/models/MetagameEvent.py`: the canonical `MetagameEvent` record;
- `src/services/AlertService.py`: the `Alert` store operations (`create`, `remove`);
- `src/services/RabbitService.py`: the `Rabbit` publisher (`setup`, `publish`).

Floats (faction weights, experience bonus, POSIX timestamps) are embedded as rationals.
MongoDB collection semantics are embedded as lists of documents in natural (insertion)
order: `insert_one` appends (rejecting a duplicate `_id`, which MongoDB always indexes
uniquely), `delete_one` removes the first document matching the filter.
-/

/-- A JSON-representable field value as produced by `dataclasses.asdict` on the
`MetagameEvent` dataclass: strings, integers, or (rational-embedded) floats. -/
inductive Value where
  | str (v : String)
  | int (v : Int)
  | num (v : Rat)
  deriving DecidableEq, Repr

/-- The fields of an incoming `auraxium.event.MetagameEvent` that the handler
`on_metagame_event` in src/ess_client.py reads. `timestamp` is the event time as POSIX
seconds (the handler only ever consumes `evt.timestamp` numerically). -/
structure EssMetagameEvent where
  world_id : Int
  instance_id : Int
  metagame_event_id : Int
  metagame_event_state_name : String
  zone_id : Int
  faction_nc : Rat
  faction_tr : Rat
  faction_vs : Rat
  experience_bonus : Rat
  timestamp : Rat
  deriving DecidableEq, Repr

/-- The `MetagameEvent` pydantic dataclass from src/models/MetagameEvent.py, fields in
declaration order: id, event_id, state, world_id, zone_id, nc, tr, vs, xp, timestamp. -/
structure MetagameEvent where
  id : String
  event_id : Int
  state : String
  world_id : Int
  zone_id : Int
  nc : Rat
  tr : Rat
  vs : Rat
  xp : Rat
  timestamp : Rat
  deriving DecidableEq, Repr

/-- Modelled from the spec: `UniqueEventId` is defined in `constants/typings.py`, which is
not under src/ (only its call sites are: `UniqueEventId(evt.world_id, evt.instance_id)` in
src/ess_client.py and `str(UniqueEventId(17, 123456))` in src/simulate_alert.py). Per the
spec (sections 3 and 8) it is the composite key (partitionId, instanceId) rendered as a
stable decimal string, e.g. `"17-123456"` for the pair (17, 123456). -/
def UniqueEventId (partitionId instanceId : Int) : String :=
  Int.repr partitionId ++ "-" ++ Int.repr instanceId

/-- The construction of `models.MetagameEvent` inside `on_metagame_event`
(src/ess_client.py lines 165-177): each record field is filled from the event. -/
def transform (evt : EssMetagameEvent) : MetagameEvent :=
  { id := UniqueEventId evt.world_id evt.instance_id
    event_id := evt.metagame_event_id
    state := evt.metagame_event_state_name
    world_id := evt.world_id
    zone_id := evt.zone_id
    nc := evt.faction_nc
    tr := evt.faction_tr
    vs := evt.faction_vs
    xp := evt.experience_bonus
    timestamp := evt.timestamp }

/-- `dataclasses.asdict(event_data)`: the association list of the dataclass fields in
declaration order. `json.dumps(event_data, default=pydantic_encoder)` serializes the same
fields, so this association list also models the published JSON object body. -/
def asdict (e : MetagameEvent) : List (String × Value) :=
  [("id", Value.str e.id),
   ("event_id", Value.int e.event_id),
   ("state", Value.str e.state),
   ("world_id", Value.int e.world_id),
   ("zone_id", Value.int e.zone_id),
   ("nc", Value.num e.nc),
   ("tr", Value.num e.tr),
   ("vs", Value.num e.vs),
   ("xp", Value.num e.xp),
   ("timestamp", Value.num e.timestamp)]

/-- Truthiness of a Python string: non-empty strings are truthy. -/
def pyStrTruthy (s : String) : Bool := s ≠ ""

/-- The branch condition on src/ess_client.py line 190:
`elif evt.metagame_event_state_name == 'ended' or 'cancelled':`.
Python `or` yields its first truthy operand, so as a condition this is the disjunction of
`state == "ended"` with the truthiness of the string literal `"cancelled"`. -/
def endedOrCancelledCond (state : String) : Bool :=
  (state == "ended") || pyStrTruthy "cancelled"

/-- The observable side effects of one run of `on_metagame_event`, in program order:
a broker publish attempt (with the JSON object fields of the body), an
`db.alerts.insert_one(dict_event)`, or a `db.alerts.delete_one({"id": unique_id})`. -/
inductive Effect where
  | publish (fields : List (String × Value))
  | insertAlert (doc : List (String × Value))
  | removeAlertById (id : String)
  deriving DecidableEq, Repr

/-- The store-mutation block of `on_metagame_event` (src/ess_client.py lines 186-193):
`if state == 'started'` insert, `elif state == 'ended' or 'cancelled'` delete by
`{"id": unique_id}`, else nothing. -/
def alertMutations (evt : EssMetagameEvent) : List Effect :=
  if evt.metagame_event_state_name == "started" then
    [Effect.insertAlert (asdict (transform evt))]
  else if endedOrCancelledCond evt.metagame_event_state_name then
    [Effect.removeAlertById (UniqueEventId evt.world_id evt.instance_id)]
  else []

/-- One unit of work of the `on_metagame_event` handler (src/ess_client.py lines 157-193).
`rabbitmqEnabled` is the `RABBITMQ_ENABLED` environment string (compared with `== 'True'`);
`publishOk` models whether `rabbit.publish` succeeds. Returns the effects in program order
and `true` if the handler ran to completion, `false` if a PublishError escaped (in which
case the store-mutation block is never reached). The publish attempt precedes the store
mutation, mirroring source order. -/
def on_metagame_event (rabbitmqEnabled : String) (publishOk : Bool)
    (evt : EssMetagameEvent) : List Effect × Bool :=
  if rabbitmqEnabled == "True" then
    if publishOk then
      (Effect.publish (asdict (transform evt)) :: alertMutations evt, true)
    else
      ([Effect.publish (asdict (transform evt))], false)
  else
    (alertMutations evt, true)

/-- Projection of a trace onto store mutations (inserts and removals). -/
def storeMutations (effects : List Effect) : List Effect :=
  effects.filter fun e =>
    match e with
    | Effect.publish _ => false
    | _ => true

/-- Projection of a trace onto broker publishes. -/
def publishEffects (effects : List Effect) : List Effect :=
  effects.filter fun e =>
    match e with
    | Effect.publish _ => true
    | _ => false

/-- A document of the alerts collection as operated on by
src/services/AlertService.py: keyed by its `_id` field (MongoDB maintains a unique index
on `_id` unconditionally), with the remaining fields carried as an association list. -/
structure MongoDoc where
  _id : String
  body : List (String × Value)
  deriving DecidableEq, Repr

/-- The error surfaced by the store driver. -/
inductive MongoError where
  | duplicateKey
  deriving DecidableEq, Repr

/-- `Alert.create` (src/services/AlertService.py lines 26-36): `insert_one(event_data)`.
MongoDB rejects a document whose `_id` already exists with DuplicateKeyError, leaving the
collection unchanged; otherwise the document is appended and its `_id` returned as
`inserted_id`. -/
def Alert.create (coll : List MongoDoc) (event_data : MongoDoc) :
    List MongoDoc × Except MongoError String :=
  if coll.any fun d => d._id == event_data._id then
    (coll, Except.error MongoError.duplicateKey)
  else
    (coll ++ [event_data], Except.ok event_data._id)

/-- `Alert.remove` (src/services/AlertService.py lines 78-88):
`delete_one({"_id": event_id})` removes the first document in natural order whose `_id`
equals `event_id` and returns `deleted_count`; it never raises, an absent id just deletes
nothing. -/
def Alert.remove : List MongoDoc → String → List MongoDoc × Nat
  | [], _ => ([], 0)
  | d :: ds, event_id =>
    if d._id = event_id then (ds, 1)
    else
      let r := Alert.remove ds event_id
      (d :: r.1, r.2)

/-- A document of the `db.alerts` collection as written by `on_metagame_event`
(`insert_one(dict_event)` with no explicit `_id`: Mongo auto-generates one) and as read by
`purge_stale_alerts`, which consults only the `id` and `timestamp` fields. There is no
unique index on `id`. -/
structure AlertDoc where
  id : String
  timestamp : Rat
  deriving DecidableEq, Repr

/-- `db.alerts.delete_one({"id": i})` (src/ess_client.py line 134): removes the first
document in natural (insertion) order whose `id` field equals `i`, returning the new
collection and `deleted_count`. -/
def delete_one_by_id : List AlertDoc → String → List AlertDoc × Nat
  | [], _ => ([], 0)
  | d :: ds, i =>
    if d.id = i then (ds, 1)
    else
      let r := delete_one_by_id ds i
      (d :: r.1, r.2)

/-- `db.alerts.find({'timestamp': {'$lt': max_age}})` followed by
`cursor.to_list(length=30)` (src/ess_client.py lines 129-131): the first 30 documents, in
natural order, whose timestamp is below the cutoff. -/
def findStale (alerts : List AlertDoc) (max_age : Rat) : List AlertDoc :=
  (alerts.filter fun d => d.timestamp < max_age).take 30

/-- `purge_stale_alerts` (src/ess_client.py lines 124-138). The cutoff
`max_age = utcnow() - timedelta(hours=1, minutes=30)` (a 5400-second retention window) is
passed as a parameter. The function reads a single batch of at most 30 stale documents,
deletes each by its `id` field, and logs the summed `deleted_count` (the Python function
returns None; the count here is the logged value). There is no loop over further batches. -/
def purge_stale_alerts (alerts : List AlertDoc) (max_age : Rat) :
    List AlertDoc × Nat :=
  let stale_alerts := findStale alerts max_age
  if stale_alerts.length > 0 then
    stale_alerts.foldl
      (fun acc i =>
        let r := delete_one_by_id acc.1 i.id
        (r.1, acc.2 + r.2))
      (alerts, 0)
  else (alerts, 0)

/-- aio_pika exchange types (src/services/RabbitService.py uses `ExchangeType.DIRECT`). -/
inductive ExchangeType where
  | direct
  | fanout
  | topic
  deriving DecidableEq, Repr

/-- aio_pika delivery modes (`DeliveryMode.PERSISTENT` requires the broker to persist the
message to disk before acknowledging). -/
inductive DeliveryMode where
  | notPersistent
  | persistent
  deriving DecidableEq, Repr

/-- A declared exchange: its name and type. -/
structure Exchange where
  name : String
  type : ExchangeType
  deriving DecidableEq, Repr

/-- An aio_pika `Message` as built by `Rabbit.publish`. The body is a byte string. -/
structure RMQMessage where
  body : List Nat
  content_encoding : String
  delivery_mode : DeliveryMode
  deriving DecidableEq, Repr

/-- A message as delivered to the broker: the target exchange, the routing key and the
message itself. -/
structure PublishedMessage where
  exchange : Exchange
  routing_key : String
  message : RMQMessage
  deriving DecidableEq, Repr

/-- The `Rabbit` service state (src/services/RabbitService.py): before `setup` there is no
declared exchange and `is_ready` is false. -/
structure Rabbit where
  is_ready : Bool
  exchange : Option Exchange
  deriving DecidableEq, Repr

/-- `Rabbit.__init__`: `is_ready = False`, no exchange declared yet. -/
def Rabbit.init : Rabbit := { is_ready := false, exchange := none }

/-- `Rabbit.setup` (src/services/RabbitService.py lines 8-22): connects to the broker at
`rabbitmq_url` and declares the direct-type exchange named `events`; sets `is_ready`. -/
def Rabbit.setup (_r : Rabbit) (_rabbitmq_url : String) : Rabbit :=
  { is_ready := true, exchange := some { name := "events", type := ExchangeType.direct } }

/-- `Rabbit.publish` (src/services/RabbitService.py lines 24-35): wraps the payload in a
`Message` with content encoding `application/json` and `DeliveryMode.PERSISTENT` and
publishes it to `self.exchange` with routing key `metagame`. Returns none when no exchange
has been declared (setup not run). -/
def Rabbit.publish (r : Rabbit) (message : List Nat) : Option PublishedMessage :=
  r.exchange.map fun ex =>
    { exchange := ex
      routing_key := "metagame"
      message :=
        { body := message
          content_encoding := "application/json"
          delivery_mode := DeliveryMode.persistent } }

/-- Numeric value of a decimal digit character. -/
def digitVal (c : Char) : Nat := c.toNat - Char.toNat '0'

/-- Decode a most-significant-first list of decimal digit characters. -/
def decodeDigits (l : List Char) : Nat :=
  l.foldl (fun a c => 10 * a + digitVal c) 0

/-- The state-policy scenario event of spec section 8: world 17, instance 123456,
state started. -/
def startedEvt : EssMetagameEvent :=
  { world_id := 17
    instance_id := 123456
    metagame_event_id := 42
    metagame_event_state_name := "started"
    zone_id := 2
    faction_nc := 40
    faction_tr := 30
    faction_vs := 20
    experience_bonus := 25
    timestamp := 1700000000 }

/-- The same event with state `restarted`. -/
def restartedEvt : EssMetagameEvent :=
  { startedEvt with metagame_event_state_name := "restarted" }

/-- The same event with state `xp_bonus_changed`. -/
def xpBonusEvt : EssMetagameEvent :=
  { startedEvt with metagame_event_state_name := "xp_bonus_changed" }

/-- A store of 45 alert documents with distinct ids, all with timestamp 0. -/
def staleStore45 : List AlertDoc :=
  (List.range 45).map fun k => { id := Nat.repr k, timestamp := 0 }

/-- A document with timestamp 100 (fresh relative to cutoff 50). -/
def freshDoc : AlertDoc := { id := "1-1", timestamp := 100 }

/-- A document sharing `freshDoc`'s id but with timestamp 0 (stale at cutoff 50). -/
def staleDoc : AlertDoc := { id := "1-1", timestamp := 0 }

/-- A concrete stored document for the witnesses, keyed by `"17-123456"`. -/
def doc0 : MongoDoc :=
  { _id := "17-123456", body := [("state", Value.str "started")] }

/-- A second document with the same `_id` as `doc0` but a different body. -/
def doc1 : MongoDoc :=
  { _id := "17-123456", body := [("state", Value.str "ended")] }

/-- A stale document with an id distinct from `freshDoc`'s. -/
def staleOther : AlertDoc := { id := "2-2", timestamp := 0 }

theorem toDigitsCore_append (f : Nat) :
    ∀ (n : Nat) (ds : List Char),
      Nat.toDigitsCore 10 f n ds = Nat.toDigitsCore 10 f n [] ++ ds := by
  induction f with
  | zero => intro n ds; rfl
  | succ f ih =>
    intro n ds
    simp only [Nat.toDigitsCore]
    by_cases h : n / 10 = 0
    · simp [h]
    · simp only [h, if_false]
      rw [ih (n / 10) [Nat.digitChar (n % 10)], ih (n / 10) (Nat.digitChar (n % 10) :: ds),
        List.append_assoc]
      rfl

theorem digitVal_digitChar (m : Nat) (h : m < 10) :
    digitVal (Nat.digitChar m) = m := by
  interval_cases m <;> decide

theorem digitChar_ne_dash (m : Nat) (h : m < 10) : Nat.digitChar m ≠ '-' := by
  interval_cases m <;> decide

theorem toDigitsCore_ne_dash (f : Nat) :
    ∀ (n : Nat) (ds : List Char), (∀ c ∈ ds, c ≠ '-') →
      ∀ c ∈ Nat.toDigitsCore 10 f n ds, c ≠ '-' := by
  induction f with
  | zero => intro n ds h; exact h
  | succ f ih =>
    intro n ds h c hc
    simp only [Nat.toDigitsCore] at hc
    by_cases h0 : n / 10 = 0
    · simp only [h0, if_true] at hc
      rcases List.mem_cons.mp hc with hc | hc
      · subst hc; exact digitChar_ne_dash _ (Nat.mod_lt _ (by decide))
      · exact h c hc
    · simp only [h0, if_false] at hc
      refine ih (n / 10) (Nat.digitChar (n % 10) :: ds) ?_ c hc
      intro x hx
      rcases List.mem_cons.mp hx with hx | hx
      · subst hx; exact digitChar_ne_dash _ (Nat.mod_lt _ (by decide))
      · exact h x hx

theorem decode_append (l : List Char) (c : Char) :
    decodeDigits (l ++ [c]) = 10 * decodeDigits l + digitVal c := by
  simp [decodeDigits, List.foldl_append]

theorem decode_toDigitsCore (f : Nat) :
    ∀ n, n < f → decodeDigits (Nat.toDigitsCore 10 f n []) = n := by
  induction f with
  | zero => intro n hn; omega
  | succ f ih =>
    intro n hn
    simp only [Nat.toDigitsCore]
    by_cases h : n / 10 = 0
    · simp only [h, if_true]
      have hlt : n % 10 < 10 := Nat.mod_lt _ (by decide)
      simp only [decodeDigits, List.foldl, digitVal_digitChar _ hlt]
      omega
    · simp only [h, if_false]
      rw [toDigitsCore_append, decode_append,
        ih (n / 10) (by omega), digitVal_digitChar _ (Nat.mod_lt _ (by decide))]
      omega

theorem natReprData_inj {m n : Nat} (h : (Nat.repr m).data = (Nat.repr n).data) :
    m = n := by
  have hd : Nat.toDigits 10 m = Nat.toDigits 10 n := by
    simpa [Nat.repr, List.asString] using h
  have h1 := decode_toDigitsCore (m + 1) m (by omega)
  have h2 := decode_toDigitsCore (n + 1) n (by omega)
  unfold Nat.toDigits at hd
  rw [hd] at h1
  rw [h2] at h1
  exact h1.symm

theorem natReprData_ne_dash (n : Nat) : ∀ c ∈ (Nat.repr n).data, c ≠ '-' := by
  have : (Nat.repr n).data = Nat.toDigitsCore 10 (n + 1) n [] := by
    simp [Nat.repr, Nat.toDigits, List.asString]
  rw [this]
  exact toDigitsCore_ne_dash (n + 1) n [] (by intro c hc; cases hc)

theorem natReprData_ne_nil (n : Nat) : (Nat.repr n).data ≠ [] := by
  have : (Nat.repr n).data = Nat.toDigitsCore 10 (n + 1) n [] := by
    simp [Nat.repr, Nat.toDigits, List.asString]
  rw [this]
  simp only [Nat.toDigitsCore]
  by_cases h : n / 10 = 0
  · simp [h]
  · simp only [h, if_false]
    rw [toDigitsCore_append]
    simp

theorem intReprData_shape (n : Int) :
    ∃ c t, (Int.repr n).data = c :: t ∧ ∀ x ∈ t, x ≠ '-' := by
  cases n with
  | ofNat m =>
    have hne := natReprData_ne_nil m
    rcases hd : (Nat.repr m).data with _ | ⟨c, t⟩
    · exact absurd hd hne
    · refine ⟨c, t, ?_, ?_⟩
      · simpa [Int.repr] using hd
      · intro x hx
        exact natReprData_ne_dash m x (by rw [hd]; exact List.mem_cons_of_mem _ hx)
  | negSucc m =>
    refine ⟨'-', (Nat.repr (m + 1)).data, ?_, ?_⟩
    · simp [Int.repr]
    · intro x hx
      exact natReprData_ne_dash (m + 1) x hx

theorem intReprData_inj {a b : Int} (h : (Int.repr a).data = (Int.repr b).data) :
    a = b := by
  cases a with
  | ofNat m =>
    cases b with
    | ofNat k =>
      have := natReprData_inj (m := m) (n := k) (by simpa [Int.repr] using h)
      simp [this]
    | negSucc k =>
      exfalso
      have h2 : (Nat.repr m).data = '-' :: (Nat.repr (k + 1)).data := by
        simpa [Int.repr] using h
      exact natReprData_ne_dash m '-' (by rw [h2]; exact List.mem_cons_self _ _) rfl
  | negSucc m =>
    cases b with
    | ofNat k =>
      exfalso
      have h2 : (Nat.repr k).data = '-' :: (Nat.repr (m + 1)).data := by
        have := h.symm
        simpa [Int.repr] using this
      exact natReprData_ne_dash k '-' (by rw [h2]; exact List.mem_cons_self _ _) rfl
    | negSucc k =>
      have h2 : (Nat.repr (m + 1)).data = (Nat.repr (k + 1)).data := by
        have := h
        simp [Int.repr] at this
        exact this
      have := natReprData_inj h2
      have hmk : m = k := by omega
      rw [hmk]

theorem append_dash_inj :
    ∀ (t1 t2 b1 b2 : List Char), (∀ x ∈ t1, x ≠ '-') → (∀ x ∈ t2, x ≠ '-') →
      t1 ++ '-' :: b1 = t2 ++ '-' :: b2 → t1 = t2 ∧ b1 = b2 := by
  intro t1
  induction t1 with
  | nil =>
    intro t2 b1 b2 _ h2 heq
    cases t2 with
    | nil =>
      simp at heq
      exact ⟨rfl, heq⟩
    | cons c t2' =>
      exfalso
      simp at heq
      exact h2 c (List.mem_cons_self _ _) heq.1.symm
  | cons c t1' ih =>
    intro t2 b1 b2 h1 h2 heq
    cases t2 with
    | nil =>
      exfalso
      simp at heq
      exact h1 c (List.mem_cons_self _ _) heq.1
    | cons d t2' =>
      simp only [List.cons_append, List.cons.injEq] at heq
      obtain ⟨hcd, htl⟩ := heq
      have := ih t2' b1 b2 (fun x hx => h1 x (List.mem_cons_of_mem _ hx))
        (fun x hx => h2 x (List.mem_cons_of_mem _ hx)) htl
      exact ⟨by rw [hcd, this.1], this.2⟩

theorem uniqueEventId_inj {p1 i1 p2 i2 : Int}
    (h : UniqueEventId p1 i1 = UniqueEventId p2 i2) : p1 = p2 ∧ i1 = i2 := by
  have hdata : (Int.repr p1).data ++ '-' :: (Int.repr i1).data =
      (Int.repr p2).data ++ '-' :: (Int.repr i2).data := by
    have := congrArg String.data h
    simpa [UniqueEventId, List.append_assoc] using this
  obtain ⟨c1, t1, he1, hdash1⟩ := intReprData_shape p1
  obtain ⟨c2, t2, he2, hdash2⟩ := intReprData_shape p2
  rw [he1, he2] at hdata
  simp only [List.cons_append, List.cons.injEq] at hdata
  obtain ⟨hc, htl⟩ := hdata
  obtain ⟨ht, hb⟩ := append_dash_inj t1 t2 _ _ hdash1 hdash2 htl
  constructor
  · exact intReprData_inj (by rw [he1, he2, hc, ht])
  · exact intReprData_inj hb

theorem any_id_eq (coll : List MongoDoc) (i : String) :
    (coll.any fun d => d._id == i) = true ↔ i ∈ coll.map MongoDoc._id := by
  simp only [List.any_eq_true, beq_iff_eq, List.mem_map]

theorem create_of_not_mem (coll : List MongoDoc) (doc : MongoDoc)
    (h : doc._id ∉ coll.map MongoDoc._id) :
    Alert.create coll doc = (coll ++ [doc], Except.ok doc._id) := by
  unfold Alert.create
  rw [if_neg]
  intro hc
  exact h ((any_id_eq coll doc._id).mp hc)

theorem remove_of_not_mem (coll : List MongoDoc) (i : String)
    (h : i ∉ coll.map MongoDoc._id) : Alert.remove coll i = (coll, 0) := by
  induction coll with
  | nil => rfl
  | cons d ds ih =>
    simp only [List.map_cons, List.mem_cons, not_or] at h
    simp only [Alert.remove, if_neg (fun he : d._id = i => h.1 he.symm)]
    rw [ih h.2]

theorem remove_append_last (coll : List MongoDoc) (doc : MongoDoc)
    (h : doc._id ∉ coll.map MongoDoc._id) :
    Alert.remove (coll ++ [doc]) doc._id = (coll, 1) := by
  induction coll with
  | nil => simp [Alert.remove]
  | cons d ds ih =>
    simp only [List.map_cons, List.mem_cons, not_or] at h
    simp only [List.cons_append, Alert.remove, List.append_eq,
      if_neg (fun he : d._id = doc._id => h.1 he.symm)]
    rw [ih h.2]

theorem remove_count_le_one (coll : List MongoDoc) (i : String) :
    (Alert.remove coll i).2 = 0 ∨ (Alert.remove coll i).2 = 1 := by
  induction coll with
  | nil => left; rfl
  | cons d ds ih =>
    simp only [Alert.remove]
    by_cases h : d._id = i
    · right; simp [h]
    · simpa [h] using ih

theorem mem_delete_one_of_ne (l : List AlertDoc) (i : String) (d : AlertDoc)
    (hd : d ∈ l) (hne : d.id ≠ i) : d ∈ (delete_one_by_id l i).1 := by
  induction l with
  | nil => cases hd
  | cons a as ih =>
    simp only [delete_one_by_id]
    by_cases ha : a.id = i
    · rw [if_pos ha]
      rcases List.mem_cons.mp hd with rfl | hd2
      · exact absurd ha hne
      · exact hd2
    · rw [if_neg ha]
      rcases List.mem_cons.mp hd with rfl | hd2
      · exact List.mem_cons_self _ _
      · exact List.mem_cons_of_mem _ (ih hd2)

theorem fold_delete_mem (d : AlertDoc) (S : List AlertDoc) :
    ∀ acc : List AlertDoc × Nat, (∀ s ∈ S, s.id ≠ d.id) → d ∈ acc.1 →
      d ∈ (S.foldl
        (fun acc i =>
          let r := delete_one_by_id acc.1 i.id
          (r.1, acc.2 + r.2)) acc).1 := by
  induction S with
  | nil => intro acc _ h; exact h
  | cons s ss ih =>
    intro acc hS hd
    simp only [List.foldl]
    exact ih _ (fun x hx => hS x (List.mem_cons_of_mem _ hx))
      (mem_delete_one_of_ne _ _ _ hd (fun he => hS s (List.mem_cons_self _ _) he.symm))

theorem endedOrCancelledCond_always_true (s : String) :
    endedOrCancelledCond s = true := by
  simp [endedOrCancelledCond, pyStrTruthy]

theorem alertMutations_started (evt : EssMetagameEvent)
    (h : evt.metagame_event_state_name = "started") :
    alertMutations evt = [Effect.insertAlert (asdict (transform evt))] := by
  unfold alertMutations
  rw [if_pos (by simp [h])]

theorem alertMutations_not_started (evt : EssMetagameEvent)
    (h : evt.metagame_event_state_name ≠ "started") :
    alertMutations evt =
      [Effect.removeAlertById (UniqueEventId evt.world_id evt.instance_id)] := by
  unfold alertMutations
  rw [if_neg (by simp [h]), if_pos (endedOrCancelledCond_always_true _)]

theorem storeMutations_pure (evt : EssMetagameEvent) :
    storeMutations (alertMutations evt) = alertMutations evt ∧
    publishEffects (alertMutations evt) = [] := by
  by_cases h : evt.metagame_event_state_name = "started"
  · rw [alertMutations_started evt h]
    exact ⟨rfl, rfl⟩
  · rw [alertMutations_not_started evt h]
    exact ⟨rfl, rfl⟩

theorem storeMutations_cons_publish (b : List (String × Value)) (l : List Effect) :
    storeMutations (Effect.publish b :: l) = storeMutations l := rfl

/-- Claim C1. The claim states that for metagame events whose state name is `restarted` or
`xp_bonus_changed` the dispatcher performs no store mutation (while still publishing), the
removal branch firing exactly on membership in the set of ended and cancelled states. The
code violates this: the condition on src/ess_client.py line 190 is
`state == 'ended' or 'cancelled'`, which is always truthy, so the removal branch fires for
every non-started state. This theorem evaluates the handler at the failing inputs: a
`restarted` and an `xp_bonus_changed` event each produce a store removal. -/
theorem c1_restarted_mutation_bug :
    (on_metagame_event "True" true restartedEvt).1 =
      [Effect.publish (asdict (transform restartedEvt)),
       Effect.removeAlertById "17-123456"] ∧
    (on_metagame_event "True" true xpBonusEvt).1 =
      [Effect.publish (asdict (transform xpBonusEvt)),
       Effect.removeAlertById "17-123456"] ∧
    endedOrCancelledCond "restarted" = true ∧
    endedOrCancelledCond "xp_bonus_changed" = true := by
  decide

/-- Claim C2, counterexample. With 45 stored records, all below the cutoff, a single
`purge_stale_alerts` invocation removes 30 records, not 45 as claimed: the function reads
a single batch of at most 30 and never loops, so 15 stale records remain. -/
theorem c2_counterexample :
    staleStore45.length = 45 ∧
    (∀ d ∈ staleStore45, d.timestamp < 1) ∧
    (purge_stale_alerts staleStore45 1).2 = 30 ∧
    ¬(purge_stale_alerts staleStore45 1).2 = 45 ∧
    (purge_stale_alerts staleStore45 1).1.length = 15 := by
  decide

/-- Claim C2, amended. Starting from 45 stale records (distinct ids) and the fixed batch
size 30, one purge invocation reads a single batch and removes 30 records; a second
invocation removes the remaining 15, emptying the store; a third removes 0. -/
theorem c2_amended_batch_per_invocation :
    (purge_stale_alerts staleStore45 1).2 = 30 ∧
    (purge_stale_alerts (purge_stale_alerts staleStore45 1).1 1).2 = 15 ∧
    (purge_stale_alerts (purge_stale_alerts staleStore45 1).1 1).1 = [] ∧
    (purge_stale_alerts
      (purge_stale_alerts (purge_stale_alerts staleStore45 1).1 1).1 1).2 = 0 := by
  decide

/-- Claim C3. Creating a record whose `_id` is already present fails with
DuplicateKeyError and leaves the collection exactly as it was (in particular the
already-present record is not removed and nothing is silently inserted or overwritten);
moreover `Alert.create` preserves the at-most-one-record-per-id invariant (no-duplicate
`_id` lists stay no-duplicate). -/
theorem c3_create_duplicate_rejected (coll : List MongoDoc) (doc : MongoDoc)
    (h : doc._id ∈ coll.map MongoDoc._id) :
    Alert.create coll doc = (coll, Except.error MongoError.duplicateKey) ∧
    ∀ (c2 : List MongoDoc) (d2 : MongoDoc), (c2.map MongoDoc._id).Nodup →
      (((Alert.create c2 d2).1).map MongoDoc._id).Nodup := by
  constructor
  · unfold Alert.create
    rw [if_pos ((any_id_eq coll doc._id).mpr h)]
  · intro c2 d2 hnd
    by_cases hdup : d2._id ∈ c2.map MongoDoc._id
    · unfold Alert.create
      rw [if_pos ((any_id_eq c2 d2._id).mpr hdup)]
      exact hnd
    · rw [create_of_not_mem c2 d2 hdup]
      simp only [List.map_append, List.map_cons, List.map_nil]
      rw [List.nodup_append]
      exact ⟨hnd, List.nodup_singleton _, by simpa [List.disjoint_singleton] using hdup⟩

/-- Claim C3, witness: inserting `doc1` into a collection already holding `doc0` with the
same `_id` is rejected and the collection is unchanged. -/
theorem c3_witness :
    doc1._id ∈ [doc0].map MongoDoc._id ∧
    Alert.create [doc0] doc1 = ([doc0], Except.error MongoError.duplicateKey) :=
  ⟨by decide, (c3_create_duplicate_rejected [doc0] doc1 (by decide)).1⟩

/-- Claim C4. `Alert.remove` returns the number of documents removed, which is always
0 or 1; after a single create of a previously absent id, removing that id twice yields
counts 1 then 0 in that order; removing an id absent from the store returns 0 and leaves
the store unchanged (the operation is total and never raises). -/
theorem c4_remove_idempotent (coll : List MongoDoc) (doc : MongoDoc)
    (habs : doc._id ∉ coll.map MongoDoc._id) :
    (Alert.remove (Alert.create coll doc).1 doc._id).2 = 1 ∧
    (Alert.remove (Alert.remove (Alert.create coll doc).1 doc._id).1 doc._id).2 = 0 ∧
    (∀ (c2 : List MongoDoc) (i : String), i ∉ c2.map MongoDoc._id →
      Alert.remove c2 i = (c2, 0)) ∧
    (∀ (c2 : List MongoDoc) (i : String),
      (Alert.remove c2 i).2 = 0 ∨ (Alert.remove c2 i).2 = 1) := by
  have hc : Alert.create coll doc = (coll ++ [doc], Except.ok doc._id) :=
    create_of_not_mem coll doc habs
  have h1 : Alert.remove (Alert.create coll doc).1 doc._id = (coll, 1) := by
    rw [hc]; exact remove_append_last coll doc habs
  have h2 : Alert.remove (Alert.remove (Alert.create coll doc).1 doc._id).1 doc._id
      = (coll, 0) := by
    rw [h1]; exact remove_of_not_mem coll doc._id habs
  exact ⟨by rw [h1], by rw [h2], remove_of_not_mem, remove_count_le_one⟩

/-- Claim C4, witness: create `doc0` in the empty store, then remove its id twice: counts
1 then 0. -/
theorem c4_witness :
    (Alert.remove (Alert.create [] doc0).1 doc0._id).2 = 1 ∧
    (Alert.remove (Alert.remove (Alert.create [] doc0).1 doc0._id).1 doc0._id).2 = 0 :=
  ⟨(c4_remove_idempotent [] doc0 (by decide)).1,
   (c4_remove_idempotent [] doc0 (by decide)).2.1⟩

/-- Claim C5, counterexample. The claim quantifies over every store state, but purge
deletes by the `id` field, on which the collection has no unique index: in a store holding
a fresh record (timestamp 100, at or above the cutoff 50) inserted before a stale record
with the same id, purge finds the stale record and `delete_one({"id": ...})` removes the
first match in natural order, namely the fresh record, which is therefore no longer
present after purge returns. -/
theorem c5_counterexample :
    (50 : Rat) ≤ freshDoc.timestamp ∧
    freshDoc ∈ [freshDoc, staleDoc] ∧
    freshDoc ∉ (purge_stale_alerts [freshDoc, staleDoc] 50).1 := by
  decide

/-- Claim C5, amended. Provided no two stored records share an `id`, no record whose
timestamp is at or above the cutoff is removed by a purge invocation: every such record is
still present after purge returns. -/
theorem c5_fresh_records_survive (alerts : List AlertDoc) (max_age : Rat) (d : AlertDoc)
    (hnd : (alerts.map AlertDoc.id).Nodup) (hd : d ∈ alerts)
    (hfresh : max_age ≤ d.timestamp) :
    d ∈ (purge_stale_alerts alerts max_age).1 := by
  unfold purge_stale_alerts
  have hS : ∀ s ∈ findStale alerts max_age, s.id ≠ d.id := by
    intro s hs he
    have hmem : s ∈ alerts.filter fun x => x.timestamp < max_age :=
      List.mem_of_mem_take hs
    have hsa : s ∈ alerts := (List.mem_filter.mp hmem).1
    have hst : s.timestamp < max_age := by
      simpa using (List.mem_filter.mp hmem).2
    have hsd : s = d := List.inj_on_of_nodup_map hnd hsa hd he
    rw [hsd] at hst
    exact absurd hst (not_lt.mpr hfresh)
  by_cases hlen : (findStale alerts max_age).length > 0
  · rw [if_pos hlen]
    exact fold_delete_mem d (findStale alerts max_age) (alerts, 0) hS hd
  · rw [if_neg hlen]
    exact hd

/-- Claim C5 (amended), witness: in a store with distinct ids holding the fresh `freshDoc`
and the stale `staleOther`, `freshDoc` survives the purge at cutoff 50. -/
theorem c5_witness :
    ([freshDoc, staleOther].map AlertDoc.id).Nodup ∧
    freshDoc ∈ (purge_stale_alerts [freshDoc, staleOther] 50).1 :=
  ⟨by decide,
   c5_fresh_records_survive [freshDoc, staleOther] 50 freshDoc (by decide) (by decide)
     (by decide)⟩

/-- Claim C6, counterexample. The published JSON object and the stored document carry the
dataclass field `id`, not `_id`: for the scenario event, `_id` is not among the serialized
field names while `id` is, so the message does not have exactly the claimed field set and
the store key is the `id` field (Mongo auto-generates a separate `_id`). -/
theorem c6_counterexample :
    "_id" ∉ (asdict (transform startedEvt)).map Prod.fst ∧
    "id" ∈ (asdict (transform startedEvt)).map Prod.fst := by
  decide

/-- Claim C6, amended. For every event, the published body and the stored document are
the association list with exactly the fields id, event_id, state, world_id, zone_id, nc,
tr, vs, xp, timestamp in that order (no `_id` field); `id` holds the rendered
UniqueEventId and `timestamp` the POSIX-seconds value; for a started event the dispatcher
publishes this object and stores this same document. -/
theorem c6_message_and_document_shape (evt : EssMetagameEvent) :
    (asdict (transform evt)).map Prod.fst =
      ["id", "event_id", "state", "world_id", "zone_id", "nc", "tr", "vs", "xp",
       "timestamp"] ∧
    (asdict (transform evt)).lookup "id" =
      some (Value.str (UniqueEventId evt.world_id evt.instance_id)) ∧
    (asdict (transform evt)).lookup "timestamp" = some (Value.num evt.timestamp) ∧
    "_id" ∉ (asdict (transform evt)).map Prod.fst ∧
    (evt.metagame_event_state_name = "started" →
      (on_metagame_event "True" true evt).1 =
        [Effect.publish (asdict (transform evt)),
         Effect.insertAlert (asdict (transform evt))]) := by
  have hkeys : (asdict (transform evt)).map Prod.fst =
      ["id", "event_id", "state", "world_id", "zone_id", "nc", "tr", "vs", "xp",
       "timestamp"] := rfl
  refine ⟨hkeys, rfl, rfl, ?_, ?_⟩
  · rw [hkeys]
    decide
  · intro h
    have hm := alertMutations_started evt h
    simp [on_metagame_event, hm]

/-- Claim C6 (amended), witness at the scenario started event. -/
theorem c6_witness :
    (asdict (transform startedEvt)).map Prod.fst =
      ["id", "event_id", "state", "world_id", "zone_id", "nc", "tr", "vs", "xp",
       "timestamp"] ∧
    (on_metagame_event "True" true startedEvt).1 =
      [Effect.publish (asdict (transform startedEvt)),
       Effect.insertAlert (asdict (transform startedEvt))] :=
  ⟨(c6_message_and_document_shape startedEvt).1,
   (c6_message_and_document_shape startedEvt).2.2.2.2 rfl⟩

/-- Claim C7, counterexample. In the code the broker publish is attempted before any
store mutation: when the publish for a started event fails, the handler's trace consists
of the failed publish attempt alone and contains no store mutation, contradicting the
claim that the store mutation has already been attempted before the failing publish. -/
theorem c7_counterexample :
    (on_metagame_event "True" false startedEvt).2 = false ∧
    (on_metagame_event "True" false startedEvt).1 =
      [Effect.publish (asdict (transform startedEvt))] ∧
    storeMutations (on_metagame_event "True" false startedEvt).1 = [] := by
  decide

/-- Claim C7, amended. The publish attempt precedes the store mutation: when the publish
fails, the handler stops with only the publish attempt in its trace and the event's store
mutation has not been attempted (so there is nothing to roll back, and the store mutation
for that event never occurs); when the publish succeeds, the store mutation follows the
publish in the trace. -/
theorem c7_publish_precedes_mutation (evt : EssMetagameEvent) :
    on_metagame_event "True" false evt =
      ([Effect.publish (asdict (transform evt))], false) ∧
    storeMutations (on_metagame_event "True" false evt).1 = [] ∧
    (on_metagame_event "True" true evt).1 =
      Effect.publish (asdict (transform evt)) ::
        storeMutations (on_metagame_event "True" true evt).1 := by
  refine ⟨rfl, rfl, ?_⟩
  show Effect.publish (asdict (transform evt)) :: alertMutations evt =
    Effect.publish (asdict (transform evt)) ::
      storeMutations (Effect.publish (asdict (transform evt)) :: alertMutations evt)
  rw [storeMutations_cons_publish, (storeMutations_pure evt).1]

/-- Claim C8. The identity derivation is deterministic and injective over all integer
(partitionId, instanceId) pairs: two rendered keys are equal exactly when both the
partition and the instance identifiers are equal. -/
theorem c8_identity_deterministic_injective (p1 i1 p2 i2 : Int) :
    UniqueEventId p1 i1 = UniqueEventId p2 i2 ↔ p1 = p2 ∧ i1 = i2 := by
  constructor
  · exact uniqueEventId_inj
  · rintro ⟨rfl, rfl⟩
    rfl

/-- Claim C9. For every payload, publishing through a Rabbit service that has completed
`setup` delivers the payload to the direct-type exchange named `events` with routing key
`metagame`, marked for persistent delivery. -/
theorem c9_publish_contract (url : String) (payload : List Nat) :
    Rabbit.publish (Rabbit.setup Rabbit.init url) payload =
      some { exchange := { name := "events", type := ExchangeType.direct }
             routing_key := "metagame"
             message := { body := payload
                          content_encoding := "application/json"
                          delivery_mode := DeliveryMode.persistent } } := rfl

/-- Claim C10. When the broker-enabled flag is any string other than `True`, processing a
metagame event performs zero broker publishes and completes, and the store mutation is
exactly the one performed when the broker is enabled and the publish succeeds: an insert
for a started event, a delete (keyed on the rendered UniqueEventId) for any other state. -/
theorem c10_disabled_flag_no_publish (flag : String) (publishOk : Bool)
    (evt : EssMetagameEvent) (h : flag ≠ "True") :
    publishEffects (on_metagame_event flag publishOk evt).1 = [] ∧
    (on_metagame_event flag publishOk evt).1 =
      storeMutations (on_metagame_event "True" true evt).1 ∧
    (on_metagame_event flag publishOk evt).2 = true ∧
    (evt.metagame_event_state_name = "started" →
      (on_metagame_event flag publishOk evt).1 =
        [Effect.insertAlert (asdict (transform evt))]) ∧
    (evt.metagame_event_state_name ≠ "started" →
      (on_metagame_event flag publishOk evt).1 =
        [Effect.removeAlertById (UniqueEventId evt.world_id evt.instance_id)]) := by
  have hbeq : (flag == "True") = false := by
    simp [h]
  have htr : on_metagame_event flag publishOk evt = (alertMutations evt, true) := by
    simp [on_metagame_event, hbeq]
  rw [htr]
  refine ⟨(storeMutations_pure evt).2, ?_, rfl, ?_, ?_⟩
  · show alertMutations evt =
      storeMutations (Effect.publish (asdict (transform evt)) :: alertMutations evt)
    rw [storeMutations_cons_publish, (storeMutations_pure evt).1]
  · intro hs
    exact alertMutations_started evt hs
  · intro hs
    exact alertMutations_not_started evt hs

/-- Claim C10, witness: with the flag string `False` the started scenario event yields no
publish effect and exactly the insert mutation. -/
theorem c10_witness :
    publishEffects (on_metagame_event "False" true startedEvt).1 = [] ∧
    (on_metagame_event "False" true startedEvt).1 =
      [Effect.insertAlert (asdict (transform startedEvt))] :=
  ⟨(c10_disabled_flag_no_publish "False" true startedEvt (by decide)).1,
   (c10_disabled_flag_no_publish "False" true startedEvt (by decide)).2.2.2.1 rfl⟩
